import Mathlib

/-!
Verification of the Artifact Age Estimator history store and analysis flow
(`src/myproject/app.py`), via a shallow embedding of the relevant Python
functions and Streamlit button handlers.

Modelling choices:
- JSON values are an inductive `Json`; the on-disk history document is a
  `DocState` (absent, present-but-unparsable, or parsed as a `Json` value).
- The filesystem is an `FS`: the document state, the list of image-file
  paths that exist on disk, and the list of paths for which `os.remove`
  raises (permission errors etc.).
- Python exceptions are modelled with `Except String`; a try/except block
  becomes a `match` on the `Except` result.
- The in-memory Streamlit session is an `AppState` (history list plus the
  selected sidebar index, plus the filesystem it acts on).
-/

/-- A JSON value, as produced by Python's `json.load`. -/
inductive Json where
  | null : Json
  | bool (b : Bool) : Json
  | num (n : Int) : Json
  | str (s : String) : Json
  | arr (items : List Json) : Json
  | obj (fields : List (String × Json)) : Json

/-- One history entry: the dict appended at app.py lines 234-241, with the
four string fields `time`, `name`, `image_path`, `result`. -/
structure AnalysisRecord where
  time : String
  name : String
  image_path : String
  result : String
deriving DecidableEq, Repr

/-- The dict for one record, as serialized by `json.dump` and read back by
`json.load`: an object with the four string fields in insertion order. -/
def recordToJson (r : AnalysisRecord) : Json :=
  Json.obj
    [("time", Json.str r.time), ("name", Json.str r.name),
     ("image_path", Json.str r.image_path), ("result", Json.str r.result)]

/-- The JSON document `save_history` writes: the array of record dicts. -/
def historyToJson (history : List AnalysisRecord) : Json :=
  Json.arr (history.map recordToJson)

/-- State of the backing document `history.json`: absent, present but not
parsable as JSON, or present and parsing to a JSON value. -/
inductive DocState where
  | absent : DocState
  | corrupt : DocState
  | parsed (j : Json) : DocState

/-- The filesystem as the app observes it: the backing document, the set of
image-file paths that exist (as a duplicate-free-by-convention list), and
the paths for which `os.remove` raises. -/
structure FS where
  doc : DocState
  files : List String
  failingPaths : List String

/-- `os.path.exists(HISTORY_FILE)` (app.py line 22). -/
def historyFileExists : DocState → Bool
  | DocState.absent => false
  | _ => true

/-- `open(HISTORY_FILE) ... json.load(f)` (app.py lines 24-25): raises on a
document that does not parse, returns the parsed value otherwise. -/
def json_load : DocState → Except String Json
  | DocState.absent => Except.error "FileNotFoundError"
  | DocState.corrupt => Except.error "JSONDecodeError"
  | DocState.parsed j => Except.ok j

/-- `load_history` (app.py lines 21-28): if the file exists, try to parse
it, returning `[]` when parsing raises; if it does not exist, return `[]`. -/
def load_history (d : DocState) : Json :=
  if historyFileExists d then
    match json_load d with
    | Except.ok j => j
    | Except.error _ => Json.arr []
  else Json.arr []

/-- `save_history` (app.py lines 31-33): full rewrite of the document with
the JSON serialization of the history list. -/
def save_history (history : List AnalysisRecord) (fs : FS) : FS :=
  { fs with doc := DocState.parsed (historyToJson history) }

/-- `safe_ext` (app.py lines 36-39). -/
def safe_ext (mime_type : String) : String :=
  if mime_type = "image/png" then "png" else "jpg"

/-- `os.path.exists(path)` on the image directory. -/
def fileExists (path : String) (fs : FS) : Bool :=
  path ∈ fs.files

/-- `os.remove(path)` (app.py line 60): raises if the file is absent or if
the OS refuses the removal; otherwise the path no longer exists. -/
def os_remove (path : String) (fs : FS) : Except String FS :=
  if path ∉ fs.files then Except.error "FileNotFoundError"
  else if path ∈ fs.failingPaths then Except.error "PermissionError"
  else Except.ok { fs with files := fs.files.filter (fun q => q ≠ path) }

/-- `delete_image_file` (app.py lines 57-62): inside a try block, remove the
file when the path is non-empty and the file exists; any exception from the
body is swallowed (`except Exception: pass`), leaving the filesystem as the
failed body left it. -/
def delete_image_file (path : String) (fs : FS) : Except String FS :=
  match (if path ≠ "" ∧ path ∈ fs.files then os_remove path fs else Except.ok fs) with
  | Except.ok fs1 => Except.ok fs1
  | Except.error _ => Except.ok fs

/-- Run `delete_image_file` for its filesystem effect (it never raises, so
the error arm is unreachable). -/
def runDelete (path : String) (fs : FS) : FS :=
  match delete_image_file path fs with
  | Except.ok fs1 => fs1
  | Except.error _ => fs

/-- The Streamlit session state the handlers act on: the in-memory history
list, the selected sidebar index (`None` when nothing is selected), and the
filesystem. -/
structure AppState where
  history : List AnalysisRecord
  selected : Option Int
  fs : FS

/-- The Delete button handler (app.py lines 103-111): when an index is
selected and in bounds, best-effort-delete that record's image file, pop the
record, and rewrite the document; otherwise do nothing. -/
def deleteSelected (s : AppState) : AppState :=
  match s.selected with
  | none => s
  | some idx =>
    if h : 0 ≤ idx ∧ idx < (s.history.length : Int) then
      let item := s.history.get ⟨idx.toNat, by omega⟩
      let fs1 := runDelete item.image_path s.fs
      let h1 := s.history.eraseIdx idx.toNat
      { history := h1, selected := none, fs := save_history h1 fs1 }
    else s

/-- The Clear All button handler (app.py lines 114-120): best-effort-delete
every record's image file, empty the list, rewrite the document. -/
def clearAll (s : AppState) : AppState :=
  let fs1 := s.history.foldl (fun a item => runDelete item.image_path a) s.fs
  { history := [], selected := none, fs := save_history [] fs1 }

/-- The append-and-save step of a successful analysis (app.py lines
234-242): append the record to the in-memory list, then rewrite the
document. -/
def appendAndSave (r : AnalysisRecord) (s : AppState) : AppState :=
  let h1 := s.history ++ [r]
  { s with history := h1, fs := save_history h1 s.fs }

/-- An uploaded file as the handler sees it: original filename and declared
MIME type (`uploaded_file.type`, which may be `None`). -/
structure Upload where
  name : String
  mimeType : Option String
deriving DecidableEq, Repr

/-- Outcome of the external `chat.completions.create` call (app.py lines
213-229): success with the result text, or one of the exceptions the
handlers at lines 248-253 distinguish. -/
inductive ApiOutcome where
  | success (text : String) : ApiOutcome
  | authError : ApiOutcome
  | rateLimitError : ApiOutcome
  | otherError (msg : String) : ApiOutcome
deriving DecidableEq, Repr

/-- The user-facing message the analysis handler ends with (app.py lines
199, 244, 249, 251, 253). -/
inductive Message where
  | configError : Message
  | analysisComplete : Message
  | invalidApiKey : Message
  | rateLimited : Message
  | genericError (s : String) : Message
deriving DecidableEq, Repr

/-- `IMAGES_DIR` (app.py line 17). -/
def IMAGES_DIR : String := "saved_images"

/-- The path `save_uploaded_image_locally` writes to (app.py lines 42-49),
with the timestamp and the 8-hex-char uuid fragment as inputs. -/
def savedImagePath (mime : String) (timeStr uniqueId : String) : String :=
  IMAGES_DIR ++ "/" ++ timeStr ++ "_" ++ uniqueId ++ "." ++ safe_ext mime

/-- Writing a file: afterwards the path exists on disk. -/
def writeFile (path : String) (files : List String) : List String :=
  if path ∈ files then files else path :: files

/-- The Estimate button handler (app.py lines 197-253): if the API key is
absent or empty (`if not api_key`), show the configuration error and do
nothing else; otherwise save the image to disk, call the provider, and on
success append the record and rewrite the document; each exception class
maps to its own message and leaves history and document untouched. -/
def run_analysis (apiKey : Option String) (u : Upload)
    (timeStr uniqueId recTime : String) (outcome : ApiOutcome)
    (s : AppState) : AppState × Message :=
  if apiKey.getD "" = "" then (s, Message.configError)
  else
    let mime := u.mimeType.getD "image/jpeg"
    let path := savedImagePath mime timeStr uniqueId
    let s1 : AppState := { s with fs := { s.fs with files := writeFile path s.fs.files } }
    match outcome with
    | ApiOutcome.success text =>
        let r : AnalysisRecord :=
          { time := recTime, name := u.name, image_path := path, result := text }
        (appendAndSave r s1, Message.analysisComplete)
    | ApiOutcome.authError => (s1, Message.invalidApiKey)
    | ApiOutcome.rateLimitError => (s1, Message.rateLimited)
    | ApiOutcome.otherError m => (s1, Message.genericError m)

/-! ### Helper lemmas about `runDelete` -/

/-- `runDelete` in closed form: the file is removed exactly when the path is
non-empty, the file exists, and the OS does not refuse the removal. -/
theorem runDelete_eq (path : String) (fs : FS) :
    runDelete path fs =
      if path ≠ "" ∧ path ∈ fs.files ∧ path ∉ fs.failingPaths then
        { fs with files := fs.files.filter (fun q => q ≠ path) }
      else fs := by
  unfold runDelete delete_image_file os_remove
  by_cases h1 : path = "" <;> by_cases h2 : path ∈ fs.files <;>
    by_cases h3 : path ∈ fs.failingPaths <;> simp [h1, h2, h3]

theorem runDelete_doc (path : String) (fs : FS) :
    (runDelete path fs).doc = fs.doc := by
  rw [runDelete_eq]; split <;> rfl

theorem runDelete_failingPaths (path : String) (fs : FS) :
    (runDelete path fs).failingPaths = fs.failingPaths := by
  rw [runDelete_eq]; split <;> rfl

theorem mem_runDelete_files (p path : String) (fs : FS)
    (h : p ∈ (runDelete path fs).files) : p ∈ fs.files := by
  rw [runDelete_eq] at h
  split at h
  · exact (List.mem_filter.mp h).1
  · exact h

theorem notMem_runDelete_files (p path : String) (fs : FS)
    (h : p ∉ fs.files) : p ∉ (runDelete path fs).files :=
  fun hmem => h (mem_runDelete_files p path fs hmem)

theorem runDelete_removes (path : String) (fs : FS)
    (h1 : path ≠ "") (h3 : path ∉ fs.failingPaths) :
    path ∉ (runDelete path fs).files := by
  rw [runDelete_eq]
  by_cases h2 : path ∈ fs.files
  · simp [h1, h2, h3, List.mem_filter]
  · simp [h1, h2, h3]

/-! ### Helper lemmas about the Clear All fold -/

theorem foldl_runDelete_failingPaths (h : List AnalysisRecord) (fs : FS) :
    (h.foldl (fun a item => runDelete item.image_path a) fs).failingPaths
      = fs.failingPaths := by
  induction h generalizing fs with
  | nil => rfl
  | cons a t ih => simp only [List.foldl_cons, ih, runDelete_failingPaths]

theorem foldl_runDelete_notMem (p : String) (h : List AnalysisRecord) (fs : FS)
    (hp : p ∉ fs.files) :
    p ∉ (h.foldl (fun a item => runDelete item.image_path a) fs).files := by
  induction h generalizing fs with
  | nil => exact hp
  | cons a t ih =>
    simp only [List.foldl_cons]
    exact ih _ (notMem_runDelete_files p a.image_path fs hp)

theorem foldl_runDelete_removes (r : AnalysisRecord) (h : List AnalysisRecord)
    (fs : FS) (hr : r ∈ h) (h1 : r.image_path ≠ "")
    (h3 : r.image_path ∉ fs.failingPaths) :
    r.image_path ∉ (h.foldl (fun a item => runDelete item.image_path a) fs).files := by
  induction h generalizing fs with
  | nil => cases hr
  | cons a t ih =>
    simp only [List.foldl_cons]
    rcases List.mem_cons.mp hr with heq | hmem
    · subst heq
      exact foldl_runDelete_notMem _ t _ (runDelete_removes _ fs h1 h3)
    · exact ih _ hmem (by rw [runDelete_failingPaths]; exact h3)

/-! ### Claim theorems -/

/-- C2: for every state of the backing document that is absent or present
but not parsable as JSON, `load_history` returns the empty sequence; the
exception raised by `json.load` is absorbed inside the function, so nothing
propagates to the caller. -/
theorem load_history_missing_or_corrupt_empty (d : DocState)
    (hd : d = DocState.absent ∨ d = DocState.corrupt) :
    load_history d = Json.arr [] := by
  rcases hd with h | h <;> subst h <;> rfl

theorem load_history_missing_or_corrupt_empty_witness :
    load_history DocState.corrupt = Json.arr [] :=
  load_history_missing_or_corrupt_empty DocState.corrupt (Or.inr rfl)

/-- C3: the extension chosen when saving an image is `png` exactly for the
MIME type `image/png`, and the fallback `jpg` exactly for every other MIME
type. -/
theorem safe_ext_png_iff (mime_type : String) :
    (safe_ext mime_type = "png" ↔ mime_type = "image/png") ∧
    (safe_ext mime_type = "jpg" ↔ mime_type ≠ "image/png") := by
  unfold safe_ext
  by_cases h : mime_type = "image/png" <;> simp [h]

/-- C10: for every backing document that parses as JSON, `load_history`
returns the parsed value unvalidated, whatever its shape (object, string,
number, ...); only parse failures are absorbed as empty history. -/
theorem load_history_parsed_unvalidated (j : Json) :
    load_history (DocState.parsed j) = j := rfl

/-- C1: appending a record to the history and rewriting the document, then
loading from the saved document (as a fresh session would at startup),
yields exactly the JSON array of the new history, whose last element is the
appended record's dict `recordToJson r`. -/
theorem append_save_then_load_last (r : AnalysisRecord) (s : AppState) :
    load_history (appendAndSave r s).fs.doc
      = Json.arr (s.history.map recordToJson ++ [recordToJson r]) ∧
    (s.history.map recordToJson ++ [recordToJson r]).getLast?
      = some (recordToJson r) := by
  constructor
  · simp [appendAndSave, save_history, load_history, historyFileExists,
      json_load, historyToJson]
  · exact List.getLast?_concat _

/-- C8: `delete_image_file` never raises to the caller — for every path and
filesystem state it returns `ok` (with the effect described by `runDelete`);
and afterwards the path is gone from disk except when it was empty or the
OS refused the removal. -/
theorem delete_image_file_never_raises (path : String) (fs : FS) :
    delete_image_file path fs = Except.ok (runDelete path fs) ∧
    (path = "" ∨ path ∈ fs.failingPaths ∨ path ∉ (runDelete path fs).files) := by
  constructor
  · unfold runDelete delete_image_file os_remove
    by_cases h1 : path = "" <;> by_cases h2 : path ∈ fs.files <;>
      by_cases h3 : path ∈ fs.failingPaths <;> simp [h1, h2, h3]
  · by_cases h1 : path = ""
    · exact Or.inl h1
    · by_cases h3 : path ∈ fs.failingPaths
      · exact Or.inr (Or.inl h3)
      · exact Or.inr (Or.inr (runDelete_removes path fs h1 h3))

/-- The `image_path` of the record at index `i`, or `""` when out of range
(mirrors `item.get("image_path", "")` at app.py line 107). -/
def imagePathAt (s : AppState) (i : Nat) : String :=
  ((s.history[i]?).map AnalysisRecord.image_path).getD ""

/-- C4: deleting the selected in-bounds record pops exactly that index (all
other records retained in order, length drops by one), rewrites the
document with the shrunk history, and the record's image asset is gone from
disk afterwards — except in the two best-effort escapes of
`delete_image_file` (empty path, or the OS refusing the removal). -/
theorem deleteSelected_in_bounds (s : AppState) (i : Nat)
    (hsel : s.selected = some (i : Int)) (hi : i < s.history.length) :
    (deleteSelected s).history.length = s.history.length - 1 ∧
    (deleteSelected s).history = s.history.eraseIdx i ∧
    (deleteSelected s).fs.doc
      = DocState.parsed (historyToJson (s.history.eraseIdx i)) ∧
    (imagePathAt s i = "" ∨ imagePathAt s i ∈ s.fs.failingPaths ∨
      imagePathAt s i ∉ (deleteSelected s).fs.files) := by
  have hcond : 0 ≤ (i : Int) ∧ (i : Int) < (s.history.length : Int) :=
    ⟨Int.natCast_nonneg i, by exact_mod_cast hi⟩
  have hds : deleteSelected s =
      { history := s.history.eraseIdx i, selected := none,
        fs := save_history (s.history.eraseIdx i)
                (runDelete (s.history.get ⟨i, hi⟩).image_path s.fs) } := by
    unfold deleteSelected
    rw [hsel]
    show (if h : _ then _ else _) = _
    rw [dif_pos hcond]
    simp [List.get_eq_getElem]
  have hip : imagePathAt s i = (s.history.get ⟨i, hi⟩).image_path := by
    simp [imagePathAt, List.getElem?_eq_getElem hi, List.get_eq_getElem]
  rw [hds]
  refine ⟨by simp [List.length_eraseIdx, hi], rfl, rfl, ?_⟩
  by_cases h1 : imagePathAt s i = ""
  · exact Or.inl h1
  · by_cases h3 : imagePathAt s i ∈ s.fs.failingPaths
    · exact Or.inr (Or.inl h3)
    · refine Or.inr (Or.inr ?_)
      rw [hip]
      exact runDelete_removes _ s.fs (hip ▸ h1) (hip ▸ h3)

/-- C5: with no selection or an out-of-bounds selection (negative or past
the end), the Delete handler changes nothing: history, selection, document
and image files are all exactly as before. -/
theorem deleteSelected_out_of_bounds (s : AppState)
    (h : ∀ i : Int, s.selected = some i → i < 0 ∨ (s.history.length : Int) ≤ i) :
    deleteSelected s = s := by
  rcases hsel : s.selected with _ | idx
  · unfold deleteSelected
    rw [hsel]
  · have hob := h idx hsel
    unfold deleteSelected
    rw [hsel]
    show (if h : _ then _ else _) = _
    rw [dif_neg (by omega)]

/-- C6: Clear All empties the history, rewrites the document as the empty
array, and every image asset referenced by a record before the call is gone
from disk afterwards — except in the two best-effort escapes of
`delete_image_file` (empty path, or the OS refusing the removal). -/
theorem clearAll_spec (s : AppState) (r : AnalysisRecord) (hr : r ∈ s.history)
    (h1 : r.image_path ≠ "") (h3 : r.image_path ∉ s.fs.failingPaths) :
    (clearAll s).history = [] ∧
    (clearAll s).fs.doc = DocState.parsed (Json.arr []) ∧
    r.image_path ∉ (clearAll s).fs.files := by
  refine ⟨rfl, rfl, ?_⟩
  simp only [clearAll, save_history]
  exact foldl_runDelete_removes r s.history s.fs hr h1 h3

/-- C7: when the provider call raises an authentication failure, the
handler shows the dedicated invalid-key message (distinct from the
configuration, success and rate-limit messages) and appends nothing: the
history and the backing document are exactly as before the attempt. -/
theorem run_analysis_auth_error (k : Option String) (hk : k.getD "" ≠ "")
    (u : Upload) (timeStr uniqueId recTime : String) (s : AppState) :
    (run_analysis k u timeStr uniqueId recTime ApiOutcome.authError s).2
      = Message.invalidApiKey ∧
    (run_analysis k u timeStr uniqueId recTime ApiOutcome.authError s).1.history
      = s.history ∧
    (run_analysis k u timeStr uniqueId recTime ApiOutcome.authError s).1.fs.doc
      = s.fs.doc ∧
    Message.invalidApiKey ≠ Message.configError ∧
    Message.invalidApiKey ≠ Message.analysisComplete ∧
    Message.invalidApiKey ≠ Message.rateLimited := by
  unfold run_analysis
  rw [if_neg hk]
  exact ⟨rfl, rfl, rfl, by simp, by simp, by simp⟩

/-- C9: when the API key is absent (or empty, which `if not api_key` also
treats as missing), triggering an analysis leaves the whole state — image
files, history, backing document, selection — untouched; the only effect is
the configuration-error message. -/
theorem run_analysis_missing_key (k : Option String) (hk : k.getD "" = "")
    (u : Upload) (timeStr uniqueId recTime : String) (outcome : ApiOutcome)
    (s : AppState) :
    run_analysis k u timeStr uniqueId recTime outcome s
      = (s, Message.configError) := by
  unfold run_analysis
  rw [if_pos hk]

/-! ### Concrete sample states for the witnesses -/

def sampleRecord : AnalysisRecord :=
  { time := "2024-01-01 10:00:00", name := "relic.jpg",
    image_path := "saved_images/20240101_100000_0a1b2c3d.jpg",
    result := "1 Type: vase" }

def sampleFS : FS :=
  { doc := DocState.parsed (historyToJson [sampleRecord]),
    files := ["saved_images/20240101_100000_0a1b2c3d.jpg"],
    failingPaths := [] }

def sampleState : AppState :=
  { history := [sampleRecord], selected := some 0, fs := sampleFS }

def sampleStateNoSel : AppState :=
  { history := [sampleRecord], selected := none, fs := sampleFS }

def sampleUpload : Upload := { name := "relic.jpg", mimeType := some "image/jpeg" }

theorem deleteSelected_in_bounds_witness :
    (deleteSelected sampleState).history.length = sampleState.history.length - 1 ∧
    (deleteSelected sampleState).history = sampleState.history.eraseIdx 0 ∧
    (deleteSelected sampleState).fs.doc
      = DocState.parsed (historyToJson (sampleState.history.eraseIdx 0)) ∧
    (imagePathAt sampleState 0 = "" ∨
      imagePathAt sampleState 0 ∈ sampleState.fs.failingPaths ∨
      imagePathAt sampleState 0 ∉ (deleteSelected sampleState).fs.files) :=
  deleteSelected_in_bounds sampleState 0 (by decide) (by decide)

theorem deleteSelected_out_of_bounds_witness :
    deleteSelected sampleStateNoSel = sampleStateNoSel :=
  deleteSelected_out_of_bounds sampleStateNoSel
    (fun _ hi => Option.noConfusion hi)

theorem clearAll_spec_witness :
    (clearAll sampleState).history = [] ∧
    (clearAll sampleState).fs.doc = DocState.parsed (Json.arr []) ∧
    sampleRecord.image_path ∉ (clearAll sampleState).fs.files :=
  clearAll_spec sampleState sampleRecord (by decide) (by decide) (by decide)

theorem run_analysis_auth_error_witness :
    (run_analysis (some "sk-test") sampleUpload "20240101_100000" "0a1b2c3d"
        "2024-01-01 10:00:00" ApiOutcome.authError sampleStateNoSel).2
      = Message.invalidApiKey ∧
    (run_analysis (some "sk-test") sampleUpload "20240101_100000" "0a1b2c3d"
        "2024-01-01 10:00:00" ApiOutcome.authError sampleStateNoSel).1.history
      = sampleStateNoSel.history ∧
    (run_analysis (some "sk-test") sampleUpload "20240101_100000" "0a1b2c3d"
        "2024-01-01 10:00:00" ApiOutcome.authError sampleStateNoSel).1.fs.doc
      = sampleStateNoSel.fs.doc ∧
    Message.invalidApiKey ≠ Message.configError ∧
    Message.invalidApiKey ≠ Message.analysisComplete ∧
    Message.invalidApiKey ≠ Message.rateLimited :=
  run_analysis_auth_error (some "sk-test") (by decide) sampleUpload
    "20240101_100000" "0a1b2c3d" "2024-01-01 10:00:00" sampleStateNoSel

theorem run_analysis_missing_key_witness :
    run_analysis none sampleUpload "20240101_100000" "0a1b2c3d"
        "2024-01-01 10:00:00" (ApiOutcome.success "1 Type: vase") sampleStateNoSel
      = (sampleStateNoSel, Message.configError) :=
  run_analysis_missing_key none rfl sampleUpload "20240101_100000" "0a1b2c3d"
    "2024-01-01 10:00:00" (ApiOutcome.success "1 Type: vase") sampleStateNoSel

theorem append_save_then_load_last_witness :
    load_history (appendAndSave sampleRecord sampleStateNoSel).fs.doc
      = Json.arr (sampleStateNoSel.history.map recordToJson
          ++ [recordToJson sampleRecord]) ∧
    (sampleStateNoSel.history.map recordToJson
        ++ [recordToJson sampleRecord]).getLast?
      = some (recordToJson sampleRecord) :=
  append_save_then_load_last sampleRecord sampleStateNoSel

theorem safe_ext_png_iff_witness :
    (safe_ext "image/gif" = "png" ↔ "image/gif" = "image/png") ∧
    (safe_ext "image/gif" = "jpg" ↔ "image/gif" ≠ "image/png") :=
  safe_ext_png_iff "image/gif"

theorem delete_image_file_never_raises_witness :
    delete_image_file "saved_images/20240101_100000_0a1b2c3d.jpg" sampleFS
      = Except.ok (runDelete "saved_images/20240101_100000_0a1b2c3d.jpg" sampleFS) ∧
    ("saved_images/20240101_100000_0a1b2c3d.jpg" = "" ∨
      "saved_images/20240101_100000_0a1b2c3d.jpg" ∈ sampleFS.failingPaths ∨
      "saved_images/20240101_100000_0a1b2c3d.jpg"
        ∉ (runDelete "saved_images/20240101_100000_0a1b2c3d.jpg" sampleFS).files) :=
  delete_image_file_never_raises "saved_images/20240101_100000_0a1b2c3d.jpg" sampleFS

theorem load_history_parsed_unvalidated_witness :
    load_history (DocState.parsed (Json.str "not an array")) = Json.str "not an array" :=
  load_history_parsed_unvalidated (Json.str "not an array")
